import Mathlib

/-!
# Verification of the OpenXC CAN signal-translation core (`src/can/canread.cpp`)

Shallow embedding of the decode / rate-limit / emit pipeline of
`canread.cpp`.  C floats are modelled as `ℚ` (the claims only use the
values through equality tests and linear arithmetic), `uint64_t` frames as
`Nat` with explicit truncation where bits matter, and out-parameters /
in-place mutation as explicit state passing.  Helper functions of the
repository that are not part of the provided sources (`getBitField`,
`time::shouldTick`, `lookupMessageDefinition`, `registerMessageDefinition`,
`lookupSignalState`, the cJSON allocator results) are modelled from the
specification, each marked `Modelled from the spec:` in its doc comment.
-/

namespace CanRead

/-- Output format selector of the pipeline (`pipeline::JSON | pipeline::PROTO`). -/
inductive OutputFormat where
  | JSON
  | PROTO
  deriving DecidableEq, Repr

/-- Modelled from the spec: `openxc::util::time::shouldTick` and the
`FrequencyClock` type are not under `src/`.  Spec §4.3: the clock is due
when the configured interval (0 = unthrottled, always due) has elapsed
since the last fire; on firing the last-fire time advances.  Timestamps
and intervals are integral (milliseconds). -/
structure FrequencyClock where
  frequency : ℤ
  lastFire : ℤ
  deriving DecidableEq, Repr

/-- Modelled from the spec: result of `time::shouldTick(&clock)` at time
`now` — whether the periodic gate fires, together with the updated clock
state (the C function mutates the clock through the pointer). -/
def shouldTick (now : ℤ) (clock : FrequencyClock) : Bool × FrequencyClock :=
  if clock.frequency = 0 ∨ clock.frequency ≤ now - clock.lastFire then
    (true, { clock with lastFire := now })
  else
    (false, clock)

/-- One entry of a signal's enumerated state table (`CanSignalState`):
a numeric value paired with its display name. -/
structure CanSignalState where
  value : ℚ
  name : String
  deriving DecidableEq, Repr

/-- `CanSignal`: static decode parameters plus the mutable runtime state
(`lastValue`, `received`, `frequencyClock`) touched by the pipeline. -/
structure CanSignal where
  genericName : String
  bitPosition : Nat
  bitSize : Nat
  factor : ℚ
  offset : ℚ
  lastValue : ℚ
  forceSendChanged : Bool
  sendSame : Bool
  received : Bool
  frequencyClock : FrequencyClock
  states : List CanSignalState
  deriving DecidableEq, Repr

/-- Modelled from the spec: `openxc::util::bitfield::getBitField` is not
under `src/`.  Spec §4.1: return the unsigned integer formed by `numBits`
bits starting `startingBit` bits from the top of the 64-bit value, treating
it as big-endian packed (bit 0 = most significant bit of byte 0); caller
guarantees `startingBit + numBits ≤ 64`. -/
def getBitField (data : Nat) (startingBit numBits : Nat) (bigEndian : Bool) : Nat :=
  if bigEndian then
    (data >>> (64 - startingBit - numBits)) % 2 ^ numBits
  else
    (data >>> startingBit) % 2 ^ numBits

/-- `openxc::can::read::decodeSignal`: extract the signal's bit field and
apply the linear scaling `raw * factor + offset`. -/
def decodeSignal (signal : CanSignal) (data : Nat) : ℚ :=
  let rawValue : Nat := getBitField data signal.bitPosition signal.bitSize true
  (rawValue : ℚ) * signal.factor + signal.offset

/-- Result of `preTranslate`: the decoded value, the signal state after the
call (clock ticked, possibly `received` set), and the value of `*send`. -/
structure PreTranslateResult where
  value : ℚ
  signal : CanSignal
  send : Bool
  deriving DecidableEq, Repr

/-- `openxc::can::read::preTranslate`.  `send` is the dereferenced value of
the `bool*` out-parameter on entry; the C code's `if(send && ...)` tests
the pointer for NULL, and every caller in the repository passes the address
of a local, so the pointer test is modelled as passing. -/
def preTranslate (signal : CanSignal) (data : Nat) (send : Bool) (now : ℤ) :
    PreTranslateResult :=
  let value := decodeSignal signal data
  let tick := shouldTick now signal.frequencyClock
  let signal := { signal with frequencyClock := tick.2 }
  if tick.1 ∨ (value ≠ signal.lastValue ∧ signal.forceSendChanged) then
    if ¬signal.received ∨ signal.sendSame ∨ value ≠ signal.lastValue then
      { value := value, signal := { signal with received := true }, send := send }
    else
      { value := value, signal := signal, send := false }
  else
    { value := value, signal := signal, send := false }

/-- `openxc::can::read::postTranslate`: record the decoded value. -/
def postTranslate (signal : CanSignal) (value : ℚ) : CanSignal :=
  { signal with lastValue := value }

/-- `openxc::can::read::passthroughHandler`: value unchanged, `*send`
untouched. -/
def passthroughHandler (_signal : CanSignal) (_signals : List CanSignal)
    (value : ℚ) (send : Bool) : ℚ × Bool :=
  (value, send)

/-- `openxc::can::read::booleanHandler`: `value == 0.0 ? false : true`,
`*send` untouched. -/
def booleanHandler (_signal : CanSignal) (_signals : List CanSignal)
    (value : ℚ) (send : Bool) : Bool × Bool :=
  (if value = 0 then false else true, send)

/-- `openxc::can::read::ignoreHandler`: clears `*send` unconditionally. -/
def ignoreHandler (_signal : CanSignal) (_signals : List CanSignal)
    (value : ℚ) (_send : Bool) : ℚ × Bool :=
  (value, false)

/-- Modelled from the spec: `lookupSignalState` is not under `src/`.
Spec §4.4: linear search of the signal's configured state list for an
exact numeric match, first match wins. -/
def lookupSignalState (value : ℚ) (signal : CanSignal) : Option CanSignalState :=
  signal.states.find? (fun state => state.value = value)

/-- `openxc::can::read::stateHandler`: return the matching state's name, or
clear `*send` and return NULL (modelled as `none`) when no state matches. -/
def stateHandler (signal : CanSignal) (_signals : List CanSignal)
    (value : ℚ) (send : Bool) : Option String × Bool :=
  match lookupSignalState value signal with
  | some signalState => (some signalState.name, send)
  | none => (none, false)

/-- A named message handed to the emitter by `translateSignal` (the
`sendNumericalMessage` / `sendBooleanMessage` / `sendStringMessage` call). -/
inductive NamedEmission where
  | num (name : String) (value : ℚ)
  | bool (name : String) (value : Bool)
  | str (name : String) (value : String)
  deriving DecidableEq, Repr

/-- `openxc::can::read::translateSignal` (float-handler overload):
decode and gate, run the handler, emit if `send` survived, then
unconditionally `postTranslate`.  Returns the final signal state and the
emission, if any.  Handlers are modelled as pure functions of the signal,
its siblings, the value and `send` (none of the repository's handlers
mutates the signal). -/
def translateSignalFloat (signal : CanSignal) (data : Nat)
    (handler : CanSignal → List CanSignal → ℚ → Bool → ℚ × Bool)
    (signals : List CanSignal) (now : ℤ) : CanSignal × Option NamedEmission :=
  let r := preTranslate signal data true now
  let processed := handler r.signal signals r.value r.send
  let emission :=
    if processed.2 then some (NamedEmission.num r.signal.genericName processed.1)
    else none
  (postTranslate r.signal r.value, emission)

/-- `openxc::can::read::translateSignal` (string-handler overload): emits
only when the handler's result is non-NULL *and* `send` survived. -/
def translateSignalString (signal : CanSignal) (data : Nat)
    (handler : CanSignal → List CanSignal → ℚ → Bool → Option String × Bool)
    (signals : List CanSignal) (now : ℤ) : CanSignal × Option NamedEmission :=
  let r := preTranslate signal data true now
  let processed := handler r.signal signals r.value r.send
  let emission :=
    match processed.1, processed.2 with
    | some stringValue, true =>
        some (NamedEmission.str r.signal.genericName stringValue)
    | _, _ => none
  (postTranslate r.signal r.value, emission)

/-- `openxc::can::read::translateSignal` (boolean-handler overload). -/
def translateSignalBool (signal : CanSignal) (data : Nat)
    (handler : CanSignal → List CanSignal → ℚ → Bool → Bool × Bool)
    (signals : List CanSignal) (now : ℤ) : CanSignal × Option NamedEmission :=
  let r := preTranslate signal data true now
  let processed := handler r.signal signals r.value r.send
  let emission :=
    if processed.2 then some (NamedEmission.bool r.signal.genericName processed.1)
    else none
  (postTranslate r.signal r.value, emission)

/-- A cJSON value handed to `sendJsonMessage` (`cJSON_CreateNumber` /
`cJSON_CreateBool` / `cJSON_CreateString`).  `undef` models a cJSON pointer
read from an uninitialized local (the `default:` branch of the struct
`sendMessage` leaves `value` uninitialized). -/
inductive CJson where
  | num (value : ℚ)
  | bool (value : Bool)
  | str (value : String)
  | undef
  deriving DecidableEq, Repr

/-- The `{name, value, event?}` object built by `sendJsonMessage`.
`name = none` models the `const char*` read from an uninitialized local. -/
structure JsonMessage where
  name : Option String
  value : CJson
  event : Option CJson
  deriving DecidableEq, Repr

/-- `openxc_VehicleMessage_Type`. -/
inductive MessageType where
  | NUM
  | BOOL
  | STRING
  | RAW
  deriving DecidableEq, Repr

/-- `openxc_VehicleMessage` restricted to the fields the translation core
reads: the type tag and the per-variant name/value payloads. -/
structure VehicleMessage where
  type : MessageType
  numericalName : String
  numericalValue : ℚ
  booleanName : String
  booleanValue : Bool
  stringName : String
  stringValue : String
  deriving DecidableEq, Repr

/-- What an emission attempt does: hand bytes to the pipeline sink, log and
drop, or reach C undefined behavior before any decision is made. -/
inductive EmitResult where
  | sinkJson (message : JsonMessage)
  | sinkProto (message : VehicleMessage)
  | dropped
  | undefinedBehavior
  deriving DecidableEq, Repr

/-- `sendJSON` (file-static in `canread.cpp`).  `root = none` models a NULL
cJSON object; `printOk = false` models `cJSON_PrintUnformatted` returning
NULL (allocation failure).  The serialized byte string is abstracted to the
object it prints.  Faithful control flow: the NULL check on `root` comes
first, but `strlen(message)` runs *before* the `message != NULL` check, so
the failed-print path reaches undefined behavior. -/
def sendJSON (root : Option JsonMessage) (printOk : Bool) : EmitResult :=
  match root with
  | none => EmitResult.dropped
  | some message =>
      if printOk then EmitResult.sinkJson message
      else EmitResult.undefinedBehavior

/-- `sendProtobuf` (file-static in `canread.cpp`).  `encodeOk = false`
models `pb_encode_delimited` failing; then the error is logged and nothing
is sent. -/
def sendProtobuf (message : VehicleMessage) (encodeOk : Bool) : EmitResult :=
  if encodeOk then EmitResult.sinkProto message else EmitResult.dropped

/-- `sendJsonMessage` (file-static in `canread.cpp`).  `allocOk = false`
models `cJSON_CreateObject` returning NULL, which is logged and dropped. -/
def sendJsonMessage (name : Option String) (value : CJson) (event : Option CJson)
    (allocOk printOk : Bool) : EmitResult :=
  if allocOk then
    sendJSON (some { name := name, value := value, event := event }) printOk
  else
    EmitResult.dropped

/-- `sendMessage(const char*, cJSON*, cJSON*, Pipeline*)`: only the JSON
output format is handled; any other format falls through with no action. -/
def sendMessageCJson (name : Option String) (value : CJson) (event : Option CJson)
    (format : OutputFormat) (allocOk printOk : Bool) : EmitResult :=
  if format = OutputFormat.JSON then
    sendJsonMessage name value event allocOk printOk
  else
    EmitResult.dropped

/-- `sendMessage(openxc_VehicleMessage*, Pipeline*)`: PROTO goes through
`sendProtobuf`; every other format builds a cJSON name/value pair by
switching on the message type and hands it to `sendJsonMessage`.  The
`default:` case logs but does not return, so `sendJsonMessage` still runs
with the uninitialized locals (modelled as `none` / `CJson.undef`). -/
def sendMessageStruct (message : VehicleMessage) (format : OutputFormat)
    (allocOk printOk encodeOk : Bool) : EmitResult :=
  if format = OutputFormat.PROTO then
    sendProtobuf message encodeOk
  else
    let nameValue : Option String × CJson :=
      match message.type with
      | MessageType.NUM => (some message.numericalName, CJson.num message.numericalValue)
      | MessageType.BOOL => (some message.booleanName, CJson.bool message.booleanValue)
      | MessageType.STRING => (some message.stringName, CJson.str message.stringValue)
      | MessageType.RAW => (none, CJson.undef)
    sendJsonMessage nameValue.1 nameValue.2 none allocOk printOk

/-- `openxc::can::read::sendEventedFloatMessage`: a string value plus a
numeric event, dispatched through the cJSON `sendMessage` overload. -/
def sendEventedFloatMessage (name : String) (value : String) (event : ℚ)
    (format : OutputFormat) (allocOk printOk : Bool) : EmitResult :=
  sendMessageCJson (some name) (CJson.str value) (some (CJson.num event))
    format allocOk printOk

/-- `openxc::can::read::sendEventedBooleanMessage`. -/
def sendEventedBooleanMessage (name : String) (value : String) (event : Bool)
    (format : OutputFormat) (allocOk printOk : Bool) : EmitResult :=
  sendMessageCJson (some name) (CJson.str value) (some (CJson.bool event))
    format allocOk printOk

/-- `openxc::can::read::sendEventedStringMessage`. -/
def sendEventedStringMessage (name : String) (value : String) (event : String)
    (format : OutputFormat) (allocOk printOk : Bool) : EmitResult :=
  sendMessageCJson (some name) (CJson.str value) (some (CJson.str event))
    format allocOk printOk

/-- `CanMessageDefinition`: per-(bus, id) passthrough rate-limit state. -/
structure CanMessageDefinition where
  busAddress : Nat
  id : Nat
  lastValue : Nat
  frequencyClock : FrequencyClock
  forceSendChanged : Bool
  deriving DecidableEq, Repr

/-- The bounded table of passthrough message definitions (the `messages`
array with its `messageCount` capacity). -/
structure MessageTable where
  defs : List CanMessageDefinition
  capacity : Nat
  deriving DecidableEq, Repr

/-- Modelled from the spec: `lookupMessageDefinition` is not under `src/`.
Spec §4.6: linear scan keyed on exact (bus, id) match. -/
def lookupMessageDefinition (busAddress id : Nat) (table : MessageTable) :
    Option CanMessageDefinition :=
  table.defs.find? (fun m => m.busAddress = busAddress ∧ m.id = id)

/-- Modelled from the spec: `registerMessageDefinition` is not under
`src/`.  Spec §4.6: register a new definition in the bounded table,
failing when the table is full.  The call site in `src/` passes only the
bus, id and table, so the new definition starts with zeroed runtime state
(`lastValue = 0`, unthrottled clock, `forceSendChanged = false`), not the
incoming payload. -/
def registerMessageDefinition (busAddress id : Nat) (table : MessageTable) :
    Bool × MessageTable :=
  if table.defs.length < table.capacity then
    (true,
      { table with
          defs := table.defs ++
            [{ busAddress := busAddress, id := id, lastValue := 0,
               frequencyClock := { frequency := 0, lastFire := 0 },
               forceSendChanged := false }] })
  else
    (false, table)

/-- Replace the first element satisfying `p` by `f` applied to it; models a
write through the pointer returned by the linear lookup. -/
def updateFirst (p : CanMessageDefinition → Bool)
    (f : CanMessageDefinition → CanMessageDefinition) :
    List CanMessageDefinition → List CanMessageDefinition
  | [] => []
  | m :: rest => if p m then f m :: rest else m :: updateFirst p f rest

/-- The raw-frame record `passthroughMessage` hands to the sink: protobuf
carries the 64-bit payload, JSON carries the payload hex-encoded byte by
byte in memory order (little-endian target, so least significant byte
first). -/
inductive PassthroughEmission where
  | proto (busAddress id data : Nat)
  | json (busAddress id : Nat) (dataBytes : List Nat)
  deriving DecidableEq, Repr

/-- The eight payload bytes in the order `passthroughMessageJson` prints
them: the union `{uint64_t whole; uint8_t bytes[8]}` on the little-endian
target yields `bytes[i] = (data >> 8*i) & 0xff`. -/
def payloadBytes (data : Nat) : List Nat :=
  (List.range 8).map (fun i => (data >>> (8 * i)) % 256)

/-- `openxc::can::read::passthroughMessage`.  Returns the table after the
call and the emission, if any.  Faithful structure: the lookup result is
bound once (`message`); a definition registered during the call does not
change that binding, so the final `message->lastValue = data` write runs
only for a pre-existing definition. -/
def passthroughMessage (busAddress id data : Nat) (table : MessageTable)
    (format : OutputFormat) (now : ℤ) :
    MessageTable × Option PassthroughEmission :=
  let found := lookupMessageDefinition busAddress id table
  let sendAndTable : Bool × MessageTable :=
    match found with
    | none => registerMessageDefinition busAddress id table
    | some m =>
        let tick := shouldTick now m.frequencyClock
        let table :=
          { table with
              defs := updateFirst
                (fun d => d.busAddress = busAddress ∧ d.id = id)
                (fun d => { d with frequencyClock := tick.2 }) table.defs }
        (tick.1 ∨ (data ≠ m.lastValue ∧ m.forceSendChanged), table)
  let emission : Option PassthroughEmission :=
    if sendAndTable.1 then
      if format = OutputFormat.PROTO then
        some (PassthroughEmission.proto busAddress id data)
      else
        some (PassthroughEmission.json busAddress id (payloadBytes data))
    else
      none
  let finalTable : MessageTable :=
    match found with
    | none => sendAndTable.2
    | some _ =>
        { sendAndTable.2 with
            defs := updateFirst
              (fun d => d.busAddress = busAddress ∧ d.id = id)
              (fun d => { d with lastValue := data }) sendAndTable.2.defs }
  (finalTable, emission)

/-! ## Example states used by concrete witnesses and counterexamples -/

/-- A signal that has never been received, with an unthrottled clock
(frequency 0, always due) and one configured state. -/
def eagerSignal : CanSignal :=
  { genericName := "fuel_level", bitPosition := 0, bitSize := 8,
    factor := 1, offset := 0, lastValue := 0,
    forceSendChanged := false, sendSame := false, received := false,
    frequencyClock := { frequency := 0, lastFire := 0 },
    states := [{ value := 0, name := "off" }] }

/-- A signal that has never been received, whose clock is not due at time 0
(interval 1000, last fired at 0) and whose decoded value for the all-zero
frame equals `lastValue`. -/
def quietSignal : CanSignal :=
  { genericName := "door_status", bitPosition := 0, bitSize := 8,
    factor := 1, offset := 0, lastValue := 0,
    forceSendChanged := true, sendSame := true, received := false,
    frequencyClock := { frequency := 1000, lastFire := 0 },
    states := [] }

/-! ## Helper lemmas shared by the claim theorems -/

/-- The value of `*send` after `preTranslate`: unchanged when both gate
conditions hold, cleared otherwise. -/
theorem preTranslate_send_eq (s : CanSignal) (d : Nat) (b : Bool) (now : ℤ) :
    (preTranslate s d b now).send =
      if ((shouldTick now s.frequencyClock).1 ∨
            (decodeSignal s d ≠ s.lastValue ∧ s.forceSendChanged)) ∧
          (¬s.received ∨ s.sendSame ∨ decodeSignal s d ≠ s.lastValue)
        then b else false := by
  simp only [preTranslate]
  split_ifs <;> simp_all

/-- `signal.received` after `preTranslate`: set exactly on the
send-eligible path, otherwise unchanged. -/
theorem preTranslate_received_eq (s : CanSignal) (d : Nat) (b : Bool) (now : ℤ) :
    (preTranslate s d b now).signal.received =
      if ((shouldTick now s.frequencyClock).1 ∨
            (decodeSignal s d ≠ s.lastValue ∧ s.forceSendChanged)) ∧
          (¬s.received ∨ s.sendSame ∨ decodeSignal s d ≠ s.lastValue)
        then true else s.received := by
  simp only [preTranslate]
  split_ifs <;> simp_all

/-- `preTranslate` returns the decoded value on every path. -/
theorem preTranslate_value_eq (s : CanSignal) (d : Nat) (b : Bool) (now : ℤ) :
    (preTranslate s d b now).value = decodeSignal s d := by
  simp only [preTranslate]
  split_ifs <;> rfl

/-- The remaining fields of the signal are never touched by
`preTranslate` (only the clock, and `received`). -/
theorem preTranslate_lastValue_eq (s : CanSignal) (d : Nat) (b : Bool) (now : ℤ) :
    (preTranslate s d b now).signal.lastValue = s.lastValue := by
  simp only [preTranslate]
  split_ifs <;> rfl

/-! ## Claim theorems -/

/-- C9: `decodeSignal` is exactly the big-endian `getBitField` extraction
scaled by `factor` and shifted by `offset`; in this embedding it is a pure
function of the signal's static parameters and the frame. -/
theorem decodeSignal_eq_getBitField_affine (s : CanSignal) (d : Nat) :
    decodeSignal s d =
      (getBitField d s.bitPosition s.bitSize true : ℚ) * s.factor + s.offset :=
  rfl

/-- C1: entered with `*send = true`, `preTranslate` leaves `*send = true`
exactly when (the clock is due ∨ (`forceSendChanged` ∧ the decoded value
differs from `lastValue`)) ∧ (¬`received` ∨ `sendSame` ∨ the decoded value
differs from `lastValue`); in that case it also sets `received = true`; in
every other case `*send = false`; and it always returns the decoded
value. -/
theorem preTranslate_send_characterization (s : CanSignal) (d : Nat) (now : ℤ) :
    ((preTranslate s d true now).send = true ↔
      (((shouldTick now s.frequencyClock).1 = true ∨
          (s.forceSendChanged = true ∧ decodeSignal s d ≠ s.lastValue)) ∧
        (s.received = false ∨ s.sendSame = true ∨ decodeSignal s d ≠ s.lastValue))) ∧
    ((preTranslate s d true now).send = true →
      (preTranslate s d true now).signal.received = true) ∧
    (preTranslate s d true now).value = decodeSignal s d := by
  refine ⟨?_, ?_, preTranslate_value_eq s d true now⟩
  · rw [preTranslate_send_eq]
    split_ifs with h
    · simp only [true_iff]
      exact ⟨h.1.imp (fun t => t) (fun hx => ⟨hx.2, hx.1⟩),
        h.2.imp (fun hr => by simpa using hr) (fun x => x)⟩
    · simp only [false_iff]
      intro hc
      exact h ⟨hc.1.imp (fun t => t) (fun hx => ⟨hx.2, hx.1⟩),
        hc.2.imp (fun hr => by simp [hr]) (fun x => x)⟩
  · intro hsend
    rw [preTranslate_send_eq] at hsend
    rw [preTranslate_received_eq]
    split_ifs at hsend ⊢ with h
    rfl

/-- C2 counterexample: a signal with `received = false` whose clock is not
due and whose decoded value equals `lastValue` leaves `preTranslate` with
`*send = false`, although it was entered with `*send = true`. -/
theorem preTranslate_firstValue_counterexample :
    quietSignal.received = false ∧
    (preTranslate quietSignal 0 true 0).send = false := by
  refine ⟨rfl, ?_⟩
  rw [preTranslate_send_eq, if_neg]
  rintro ⟨h | ⟨h, -⟩, -⟩
  · simp [shouldTick, quietSignal] at h
  · exact h (by simp [decodeSignal, getBitField, quietSignal])

/-- C2 amended: for every signal with `received == false` and every frame,
*provided the outer eligibility gate holds* (the clock is due, or
`forceSendChanged` is set and the decoded value differs from `lastValue`),
`preTranslate` entered with `*send = true` yields `*send = true`,
regardless of `sendSame` and of whether the decoded value equals
`lastValue`. -/
theorem preTranslate_firstValue_amended (s : CanSignal) (d : Nat) (now : ℤ)
    (hr : s.received = false)
    (he : (shouldTick now s.frequencyClock).1 = true ∨
      (s.forceSendChanged = true ∧ decodeSignal s d ≠ s.lastValue)) :
    (preTranslate s d true now).send = true := by
  rw [preTranslate_send_eq]
  have hcond : (((shouldTick now s.frequencyClock).1 ∨
      (decodeSignal s d ≠ s.lastValue ∧ s.forceSendChanged)) ∧
      (¬s.received ∨ s.sendSame ∨ decodeSignal s d ≠ s.lastValue)) := by
    constructor
    · rcases he with h | ⟨h1, h2⟩
      · exact Or.inl (by simp [h])
      · exact Or.inr ⟨h2, by simp [h1]⟩
    · exact Or.inl (by simp [hr])
  rw [if_pos hcond]

/-- C2 amended, witness: the hypotheses hold for `eagerSignal` (never
received, unthrottled clock) and the conclusion follows. -/
theorem preTranslate_firstValue_amended_witness :
    eagerSignal.received = false ∧
    (shouldTick 0 eagerSignal.frequencyClock).1 = true ∧
    (preTranslate eagerSignal 0 true 0).send = true :=
  ⟨by decide, by decide,
    preTranslate_firstValue_amended eagerSignal 0 0 (by decide)
      (Or.inl (by decide))⟩

/-- The two phrasings of the send gate (the claim's and the code's) agree. -/
theorem gate_condition_conv (s : CanSignal) (d : Nat) (now : ℤ) :
    (((shouldTick now s.frequencyClock).1 = true ∨
        (s.forceSendChanged = true ∧ decodeSignal s d ≠ s.lastValue)) ∧
      (s.received = false ∨ s.sendSame = true ∨ decodeSignal s d ≠ s.lastValue)) ↔
    (((shouldTick now s.frequencyClock).1 ∨
        (decodeSignal s d ≠ s.lastValue ∧ s.forceSendChanged)) ∧
      (¬s.received ∨ s.sendSame ∨ decodeSignal s d ≠ s.lastValue)) := by
  constructor
  · rintro ⟨h1, h2⟩
    exact ⟨h1.imp (fun t => t) (fun hx => ⟨hx.2, hx.1⟩),
      h2.imp (fun hr => by simp [hr]) (fun x => x)⟩
  · rintro ⟨h1, h2⟩
    exact ⟨h1.imp (fun t => t) (fun hx => ⟨hx.2, hx.1⟩),
      h2.imp (fun hr => by simpa using hr) (fun x => x)⟩

/-- C3: after any call to a `translateSignal` overload, `signal.lastValue`
equals the value decoded by `preTranslate` for that frame, even when the
handler cleared `send`; and when the gate conditions are satisfied,
`signal.received = true` afterward even if the handler vetoes emission. -/
theorem translateSignal_postconditions (s : CanSignal) (d : Nat) (now : ℤ)
    (sigs : List CanSignal)
    (fh : CanSignal → List CanSignal → ℚ → Bool → ℚ × Bool)
    (sh : CanSignal → List CanSignal → ℚ → Bool → Option String × Bool)
    (bh : CanSignal → List CanSignal → ℚ → Bool → Bool × Bool) :
    ((translateSignalFloat s d fh sigs now).1.lastValue = decodeSignal s d ∧
      (translateSignalString s d sh sigs now).1.lastValue = decodeSignal s d ∧
      (translateSignalBool s d bh sigs now).1.lastValue = decodeSignal s d) ∧
    ((((shouldTick now s.frequencyClock).1 = true ∨
        (s.forceSendChanged = true ∧ decodeSignal s d ≠ s.lastValue)) ∧
      (s.received = false ∨ s.sendSame = true ∨ decodeSignal s d ≠ s.lastValue)) →
      ((translateSignalFloat s d fh sigs now).1.received = true ∧
        (translateSignalString s d sh sigs now).1.received = true ∧
        (translateSignalBool s d bh sigs now).1.received = true)) := by
  have hval := preTranslate_value_eq s d true now
  constructor
  · exact ⟨by simp [translateSignalFloat, postTranslate, hval],
      by simp [translateSignalString, postTranslate, hval],
      by simp [translateSignalBool, postTranslate, hval]⟩
  · intro hc
    have hrec : (preTranslate s d true now).signal.received = true := by
      rw [preTranslate_received_eq, if_pos ((gate_condition_conv s d now).mp hc)]
    exact ⟨by simp [translateSignalFloat, postTranslate, hrec],
      by simp [translateSignalString, postTranslate, hrec],
      by simp [translateSignalBool, postTranslate, hrec]⟩

/-- C3 witness: for `eagerSignal` (unthrottled clock, never received) the
gate hypothesis holds, and after each overload `received = true`. -/
theorem translateSignal_postconditions_witness :
    (((shouldTick 0 eagerSignal.frequencyClock).1 = true ∨
        (eagerSignal.forceSendChanged = true ∧
          decodeSignal eagerSignal 0 ≠ eagerSignal.lastValue)) ∧
      (eagerSignal.received = false ∨ eagerSignal.sendSame = true ∨
        decodeSignal eagerSignal 0 ≠ eagerSignal.lastValue)) ∧
    ((translateSignalFloat eagerSignal 0 passthroughHandler [] 0).1.received = true ∧
      (translateSignalString eagerSignal 0 stateHandler [] 0).1.received = true ∧
      (translateSignalBool eagerSignal 0 booleanHandler [] 0).1.received = true) := by
  have hc : (((shouldTick 0 eagerSignal.frequencyClock).1 = true ∨
      (eagerSignal.forceSendChanged = true ∧
        decodeSignal eagerSignal 0 ≠ eagerSignal.lastValue)) ∧
    (eagerSignal.received = false ∨ eagerSignal.sendSame = true ∨
      decodeSignal eagerSignal 0 ≠ eagerSignal.lastValue)) :=
    ⟨Or.inl (by decide), Or.inl (by decide)⟩
  exact ⟨hc, (translateSignal_postconditions eagerSignal 0 0 []
    passthroughHandler stateHandler booleanHandler).2 hc⟩

/-- C4: `passthroughMessage` emits exactly when either no definition for
(bus, id) exists and registration succeeds (first sighting; a full table
fails registration and drops the frame), or a definition exists and the
clock is due or (`forceSendChanged` and the payload changed). -/
theorem passthroughMessage_emits_iff (busAddress id data : Nat)
    (table : MessageTable) (format : OutputFormat) (now : ℤ) :
    (passthroughMessage busAddress id data table format now).2 ≠ none ↔
      ((lookupMessageDefinition busAddress id table = none ∧
          (registerMessageDefinition busAddress id table).1 = true) ∨
        (∃ m, lookupMessageDefinition busAddress id table = some m ∧
          ((shouldTick now m.frequencyClock).1 = true ∨
            (m.forceSendChanged = true ∧ data ≠ m.lastValue)))) := by
  rcases hf : lookupMessageDefinition busAddress id table with _ | m
  · cases format <;> simp [passthroughMessage, hf]
  · cases format <;>
      cases ht : (shouldTick now m.frequencyClock).1 <;>
        simp [passthroughMessage, hf, ht] <;> tauto

/-- C10: the send flag is monotone non-increasing: entered with
`*send = false`, `preTranslate` and every built-in handler (passthrough,
boolean, ignore, state) return `*send = false`; `ignoreHandler` clears it
from any entry value. -/
theorem send_flag_monotone (s : CanSignal) (d : Nat) (now : ℤ)
    (sigs : List CanSignal) (v : ℚ) (b : Bool) :
    (preTranslate s d false now).send = false ∧
    (passthroughHandler s sigs v false).2 = false ∧
    (booleanHandler s sigs v false).2 = false ∧
    (ignoreHandler s sigs v b).2 = false ∧
    (stateHandler s sigs v false).2 = false := by
  refine ⟨?_, rfl, rfl, rfl, ?_⟩
  · rw [preTranslate_send_eq]
    split_ifs <;> rfl
  · unfold stateHandler
    cases lookupSignalState v s <;> rfl

/-- A table with one pre-existing definition for (bus 1, id 2). -/
def knownTable : MessageTable :=
  { defs := [{ busAddress := 1, id := 2, lastValue := 7,
               frequencyClock := { frequency := 0, lastFire := 0 },
               forceSendChanged := false }],
    capacity := 1 }

/-- Writing through the pointer returned by a linear search: if the search
found `m`, searching again after replacing the first match by `f m` finds
`f m`, provided `f` preserves the key. -/
theorem find?_updateFirst (p : CanMessageDefinition → Bool)
    (f : CanMessageDefinition → CanMessageDefinition)
    (l : List CanMessageDefinition) (m : CanMessageDefinition)
    (hf : ∀ x, p x = true → p (f x) = true)
    (h : l.find? p = some m) :
    (updateFirst p f l).find? p = some (f m) := by
  induction l with
  | nil => simp at h
  | cons a rest ih =>
      rcases ha : p a with _ | _
      · rw [List.find?_cons_of_neg _ (by simp [ha])] at h
        rw [updateFirst, if_neg (by simp [ha]),
          List.find?_cons_of_neg _ (by simp [ha])]
        exact ih h
      · rw [List.find?_cons_of_pos _ ha] at h
        rw [updateFirst, if_pos (by simp [ha]),
          List.find?_cons_of_pos _ (hf a ha)]
        exact congrArg (some ∘ f) (Option.some.inj h)

/-- C5 counterexample: with an empty one-slot table, `passthroughMessage`
registers (bus 1, id 2) during the call and emits the first sighting, but
the newly registered definition's `lastValue` stays at its initial 0
instead of the incoming payload 5: the final `message->lastValue = data`
write uses the pre-registration lookup result, which was NULL. -/
theorem passthroughMessage_lastValue_counterexample :
    (passthroughMessage 1 2 5 { defs := [], capacity := 1 }
        OutputFormat.PROTO 0).2 ≠ none ∧
    (passthroughMessage 1 2 5 { defs := [], capacity := 1 }
        OutputFormat.PROTO 0).1.defs =
      [{ busAddress := 1, id := 2, lastValue := 0,
          frequencyClock := { frequency := 0, lastFire := 0 },
          forceSendChanged := false }] ∧
    (5 : Nat) ≠ 0 := by
  refine ⟨?_, rfl, by decide⟩
  decide

/-- C5 amended: on every call for a (bus, id) pair whose definition
*pre-existed* the call, that definition's `lastValue` is updated to the
incoming payload after the send decision, regardless of whether the frame
was emitted; a definition registered during the call keeps its initial
`lastValue`. -/
theorem passthroughMessage_lastValue_amended (busAddress id data : Nat)
    (table : MessageTable) (format : OutputFormat) (now : ℤ)
    (m : CanMessageDefinition)
    (h : lookupMessageDefinition busAddress id table = some m) :
    ∃ m', lookupMessageDefinition busAddress id
        (passthroughMessage busAddress id data table format now).1 = some m' ∧
      m'.lastValue = data := by
  simp only [lookupMessageDefinition] at h
  simp only [passthroughMessage, lookupMessageDefinition, h]
  exact ⟨_, find?_updateFirst _ _ _ _ (fun x hx => hx)
    (find?_updateFirst _ _ _ _ (fun x hx => hx) h), rfl⟩

/-- C5 amended, witness: the pre-existing definition in `knownTable` has
its `lastValue` updated to the payload 5. -/
theorem passthroughMessage_lastValue_amended_witness :
    lookupMessageDefinition 1 2 knownTable =
      some ({ busAddress := 1, id := 2, lastValue := 7,
              frequencyClock := { frequency := 0, lastFire := 0 },
              forceSendChanged := false } : CanMessageDefinition) ∧
    ∃ m', lookupMessageDefinition 1 2
        (passthroughMessage 1 2 5 knownTable OutputFormat.JSON 0).1 = some m' ∧
      m'.lastValue = 5 :=
  ⟨by decide,
    passthroughMessage_lastValue_amended 1 2 5 knownTable OutputFormat.JSON 0
      ({ busAddress := 1, id := 2, lastValue := 7,
          frequencyClock := { frequency := 0, lastFire := 0 },
          forceSendChanged := false } : CanMessageDefinition) (by decide)⟩

/-- C6: at the failing input — a `VehicleMessage` whose type is RAW (none
of NUM/BOOL/STRING) with JSON output format — the `default:` switch branch
logs the diagnostic but does not return, so `sendJsonMessage` still runs
with the uninitialized `name`/`value` locals and a message built from them
reaches the pipeline sink instead of being dropped. -/
theorem sendMessageStruct_unrecognized_reaches_sink :
    sendMessageStruct
      { type := MessageType.RAW, numericalName := "", numericalValue := 0,
        booleanName := "", booleanValue := false,
        stringName := "", stringValue := "" }
      OutputFormat.JSON true true true =
      EmitResult.sinkJson { name := none, value := CJson.undef, event := none } :=
  rfl

/-- C7: a NULL root object (`cJSON_CreateObject` failure) is logged and
dropped by both `sendJsonMessage` and `sendJSON`, but when
`cJSON_PrintUnformatted` returns NULL, `sendJSON` computes
`strlen(message)` before its `message != NULL` check, reaching undefined
behavior instead of logging and dropping. -/
theorem sendJSON_print_failure_behavior :
    sendJSON none true = EmitResult.dropped ∧
    sendJsonMessage (some "name") (CJson.num 0) none false true =
      EmitResult.dropped ∧
    sendJSON (some { name := some "name", value := CJson.num 0, event := none })
        false =
      EmitResult.undefinedBehavior :=
  ⟨rfl, rfl, rfl⟩

/-- C8 counterexample: an evented emission with PROTO output format is
dropped — it is not encoded as a protobuf `VehicleMessage` and nothing
reaches the sink (the cJSON `sendMessage` overload handles only JSON). -/
theorem sendEvented_proto_counterexample :
    sendEventedFloatMessage "n" "v" 1 OutputFormat.PROTO true true =
      EmitResult.dropped ∧
    sendEventedBooleanMessage "n" "v" true OutputFormat.PROTO true true =
      EmitResult.dropped ∧
    sendEventedStringMessage "n" "v" "e" OutputFormat.PROTO true true =
      EmitResult.dropped :=
  ⟨rfl, rfl, rfl⟩

/-- C8 amended: the evented emitters dispatch only to the JSON path: with
outputFormat JSON (and allocation/serialization succeeding) they hand the
sink a JSON object carrying the `event` field; with outputFormat PROTO
nothing is emitted at all. -/
theorem sendEvented_dispatch (name value : String) (event : ℚ) (eventB : Bool)
    (eventS : String) (allocOk printOk : Bool) :
    (sendEventedFloatMessage name value event OutputFormat.PROTO allocOk printOk =
        EmitResult.dropped ∧
      sendEventedBooleanMessage name value eventB OutputFormat.PROTO allocOk printOk =
        EmitResult.dropped ∧
      sendEventedStringMessage name value eventS OutputFormat.PROTO allocOk printOk =
        EmitResult.dropped) ∧
    (sendEventedFloatMessage name value event OutputFormat.JSON true true =
        EmitResult.sinkJson
          { name := some name, value := CJson.str value,
            event := some (CJson.num event) } ∧
      sendEventedBooleanMessage name value eventB OutputFormat.JSON true true =
        EmitResult.sinkJson
          { name := some name, value := CJson.str value,
            event := some (CJson.bool eventB) } ∧
      sendEventedStringMessage name value eventS OutputFormat.JSON true true =
        EmitResult.sinkJson
          { name := some name, value := CJson.str value,
            event := some (CJson.str eventS) }) :=
  ⟨⟨rfl, rfl, rfl⟩, ⟨rfl, rfl, rfl⟩⟩

end CanRead
